import Mathlib

/-!
# kubeproxy: pod events to Cuberite notifications

A shallow embedding of `src/go/src/kubeproxy/main.go`.  Outbound HTTP traffic is kept as an
explicit trace in `World`; every Go function with a side effect becomes a function on `World`.
Values of external libraries (the Kubernetes client, `net/url`) are modelled only as far as the
program looks at them.
-/

namespace Kubeproxy

/-! ## Data model -/

/-- The part of `kapi.Pod` the program reads: `ObjectMeta.Namespace` and `ObjectMeta.Name`. -/
structure Pod where
  Namespace : String
  Name : String
deriving DecidableEq, Repr

/-- A value of Go type `interface{}` as the informer hands it to an event handler: a `*kapi.Pod`,
a `cache.DeletedFinalStateUnknown` tombstone (store key and last known state, handed to the delete
handler when a deletion was only noticed on re-list), or a value of some other dynamic type. -/
inductive Obj where
  | pod (e : Pod)
  | deletedFinalStateUnknown (key : String) (last : Pod)
  | other (typeName : String)
deriving DecidableEq, Repr

/-- Go `url.Values`: a map from field name to the list of its values, kept in literal order. -/
abbrev Values := List (String × List String)

/-- Go `Values.Get`: the first value of the field, or the empty string. -/
def Values.Get (v : Values) (key : String) : String :=
  match v.lookup key with
  | some (x :: _) => x
  | _ => ""

/-- Presence of a field in the map, Go `_, ok := v[key]`. -/
def Values.Has (v : Values) (key : String) : Bool :=
  (v.lookup key).isSome

/-- The outbound request built by `CuberiteServerRequest`; `form` is the map whose
`data.Encode()` is the request body. -/
structure Request where
  method : String
  url : String
  contentType : String
  basicAuth : String × String
  form : Values
deriving DecidableEq, Repr

/-- Process-wide state: the global `podsStore` (keyed records) and the trace of requests sent to
the Cuberite endpoint, oldest first. -/
structure World where
  podsStore : List (String × Pod)
  sent : List Request
deriving DecidableEq, Repr

/-! ## Notification sink -/

/-- The request Go `CuberiteServerRequest` builds: a POST of the form to the fixed endpoint, with
the form content type and basic credentials. -/
def cuberiteRequest (data : Values) : Request :=
  { method := "POST"
    url := "http://127.0.0.1:8080/webadmin/Docker/Docker"
    contentType := "application/x-www-form-urlencoded"
    basicAuth := ("admin", "admin")
    form := data }

/-- Go `CuberiteServerRequest`: builds the request and sends it once (`client.Do(req)`); the
response and any error are dropped. -/
def CuberiteServerRequest (data : Values) (w : World) : World :=
  let req := cuberiteRequest data
  { w with sent := w.sent ++ [req] }

/-- The names of the body fields of a request, in literal order. -/
def Request.fields (r : Request) : List String :=
  r.form.map Prod.fst

/-! ## Event handlers -/

/-- Go `handleGenericPodEvent`. -/
def handleGenericPodEvent (pod : Pod) (w : World) : World :=
  let repo := ""
  let tag := ""
  let containerName := pod.Name
  let data : Values :=
    [ ("action", ["createContainer"]),
      ("id", [containerName]),
      ("name", [containerName]),
      ("imageRepo", [repo]),
      ("imageTag", [tag]) ]
  CuberiteServerRequest data w

/-- Go `handlePodCreate`: acts only when the payload asserts to `*kapi.Pod`. -/
def handlePodCreate (obj : Obj) (w : World) : World :=
  match obj with
  | .pod e => handleGenericPodEvent e w
  | _ => w

/-- Go `handlePodUpdate`: returns at once. -/
def handlePodUpdate (_old : Obj) (_new : Obj) (w : World) : World :=
  w

/-- Go `handlePodDelete`: acts only when the payload asserts to `*kapi.Pod`. -/
def handlePodDelete (obj : Obj) (w : World) : World :=
  match obj with
  | .pod e =>
    let containerName := e.Name
    let data : Values :=
      [ ("action", ["destroyContainer"]),
        ("id", [containerName]) ]
    CuberiteServerRequest data w
  | _ => w

/-- Go `kframework.ResourceEventHandlerFuncs`. -/
structure ResourceEventHandlerFuncs where
  AddFunc : Obj → World → World
  UpdateFunc : Obj → Obj → World → World
  DeleteFunc : Obj → World → World

/-- The handlers `watchPods` registers with the informer. -/
def watchPodsHandlers : ResourceEventHandlerFuncs :=
  { AddFunc := handlePodCreate
    UpdateFunc := fun oldObj newObj => handlePodUpdate oldObj newObj
    DeleteFunc := handlePodDelete }

/-! ## Kubernetes client, as far as the program uses it -/

/-- Go `kapi.NamespaceAll`. -/
def NamespaceAll : String := ""

/-- The API server as one list call sees it: an error, or the pods of the remote collection. -/
structure Client where
  remote : Except String (List Pod)

/-- Kubernetes client `Pods(ns).List(labels.Everything(), fields.Everything())`: the pods of
namespace `ns`, of every namespace when `ns` is `NamespaceAll`; the error when the call fails. -/
def Client.PodsList (c : Client) (ns : String) : Except String (List Pod) :=
  match c.remote with
  | .error e => .error e
  | .ok pods => .ok (if ns = NamespaceAll then pods else pods.filter (fun p => p.Namespace = ns))

/-- Go `createEndpointsPodLW`, its list half: pods of `kapi.NamespaceAll`, every field. -/
def createEndpointsPodLW (kubeClient : Client) : Except String (List Pod) :=
  kubeClient.PodsList NamespaceAll

/-- Kubernetes `cache.MetaNamespaceKeyFunc`, the key of the informer store: `namespace/name`, or
the bare name when the namespace is empty. -/
def MetaNamespaceKeyFunc (p : Pod) : String :=
  if p.Namespace.length > 0 then p.Namespace ++ "/" ++ p.Name else p.Name

/-- Informer store `Add`/`Update`: insert the record under its key, replacing a record already
held under that key. -/
def storeUpsert (store : List (String × Pod)) (p : Pod) : List (String × Pod) :=
  if store.any (fun kv => kv.1 = MetaNamespaceKeyFunc p) then
    store.map (fun kv => if kv.1 = MetaNamespaceKeyFunc p then (kv.1, p) else kv)
  else
    store ++ [(MetaNamespaceKeyFunc p, p)]

/-- The store after the informer started by `watchPods` has listed the collection: every pod
returned by the list half of `createEndpointsPodLW`, under its key. A failed list leaves the
store empty. -/
def watchPodsStore (kubeClient : Client) : List (String × Pod) :=
  match createEndpointsPodLW kubeClient with
  | .error _ => []
  | .ok pods => pods.foldl storeUpsert []

/-! ## Control surface -/

/-- The form `listContainers` builds for one listed pod. -/
def containerInfosData (pod : Pod) : Values :=
  let id := pod.Name
  let name := pod.Name
  let imageRepo := ""
  let imageTag := ""
  [ ("action", ["containerInfos"]),
    ("id", [id]),
    ("name", [name]),
    ("imageRepo", [imageRepo]),
    ("imageTag", [imageTag]),
    ("running", ["true"]) ]

/-- The goroutine of Go `listContainers` after its list call returned `listing`: on error nothing
is sent, otherwise one request per item, in index order. -/
def listContainersBody (listing : Except String (List Pod)) (w : World) : World :=
  match listing with
  | .error _ => w
  | .ok items => items.foldl (fun acc pod => CuberiteServerRequest (containerInfosData pod) acc) w

/-- Go `listContainers`: writes `OK` to the response, then lists the pods of namespace
`default` and reports each one. -/
def listContainers (client : Client) (w : World) : String × World :=
  ("OK", listContainersBody (client.PodsList "default") w)

/-- The requests a step added to the trace. -/
def newlySent (before after : World) : List Request :=
  after.sent.drop before.sent.length

/-- The `id` field of a request. -/
def Request.id (r : Request) : String :=
  Values.Get r.form "id"

/-- The `action` field of a request. -/
def Request.action (r : Request) : String :=
  Values.Get r.form "action"

/-! ## Process entry -/

/-- Outcome of one call of Go `http.Get`, decided by the library and the network: an error raised
before any request went out (as for a URL that does not parse), an error after the request was
attempted, or a response with its status code. -/
inductive GetResult where
  | notSent (err : String)
  | failed (err : String)
  | response (statusCode : Nat)
deriving DecidableEq, Repr

/-- The `err` returned by `http.Get`, when it is not nil. -/
def GetResult.err : GetResult → Option String
  | .notSent err => some err
  | .failed err => some err
  | .response _ => none

/-- The `resp.StatusCode` of a response; zero when there is none. -/
def GetResult.StatusCode : GetResult → Nat
  | .response statusCode => statusCode
  | _ => 0

/-- What `main` does to the outside, in order; `httpGet` is a call of `http.Get` on a URL
together with what came of it, `log` a line written through `logrus`. -/
inductive Effect where
  | fatal (msg : String)
  | httpGet (url : String) (result : GetResult)
  | log (msg : String)
  | serve (addr : String) (routes : List String)
  | watchPods
  | blockForever
  | exit
deriving DecidableEq, Repr

/-- Go `main`, given the outcome of `newKubeClient()`, the behaviour of `http.Get` and the
process arguments `os.Args`. -/
def main (newKubeClient : Except String Client) (httpGet : String → GetResult)
    (osArgs : List String) : List Effect :=
  match newKubeClient with
  | .error err => [.fatal ("Failed to create a kubernetes client:" ++ err)]
  | .ok _ =>
    if osArgs.length > 1 then
      (if osArgs.length = 2 then
        let reqPath := "http://127.0.0.1:8000/" ++ osArgs.getD 1 ""
        let resp := httpGet reqPath
        match resp.err with
        | some err =>
          [Effect.httpGet reqPath resp,
            Effect.log ("Error on request: " ++ reqPath ++ " ERROR: " ++ err)]
        | none =>
          [Effect.httpGet reqPath resp,
            Effect.log ("Request sent " ++ reqPath ++ " StatusCode: " ++ toString resp.StatusCode)]
      else []) ++ [.exit]
    else
      [.serve ":8000" ["/containers", "/exec"], .log "about to watch pods", .watchPods,
        .log "watching pods", .blockForever]

/-- The URLs of the GET requests that went out: the calls of `http.Get` that did not fail before
sending. -/
def getsSent : List Effect → List String
  | [] => []
  | .httpGet _ (.notSent _) :: rest => getsSent rest
  | .httpGet url _ :: rest => url :: getsSent rest
  | _ :: rest => getsSent rest

/-- The URLs on which `http.Get` was called. -/
def getCalls : List Effect → List String
  | [] => []
  | .httpGet url _ :: rest => url :: getCalls rest
  | _ :: rest => getCalls rest

/-! ## The `/exec` path: `net/url` and `strings`, on byte strings -/

/-- A Go string: a sequence of bytes, each below 256. -/
abbrev GoString := List Nat

/-- The bytes of an ASCII literal. -/
def ascii (s : String) : GoString :=
  s.toList.map Char.toNat

/-- Go `net/url` `ishex`. -/
def ishex (c : Nat) : Bool :=
  (48 ≤ c && c ≤ 57) || (97 ≤ c && c ≤ 102) || (65 ≤ c && c ≤ 70)

/-- Go `net/url` `unhex`. -/
def unhex (c : Nat) : Nat :=
  if 48 ≤ c && c ≤ 57 then c - 48
  else if 97 ≤ c && c ≤ 102 then c - 97 + 10
  else if 65 ≤ c && c ≤ 70 then c - 65 + 10
  else 0

/-- Go `net/url` `shouldEscape` in query-component mode: letters, digits and `-_.~` stay,
every other byte is escaped. -/
def shouldEscape (c : Nat) : Bool :=
  if (97 ≤ c && c ≤ 122) || (65 ≤ c && c ≤ 90) || (48 ≤ c && c ≤ 57) then false
  else if c = 45 || c = 95 || c = 46 || c = 126 then false
  else true

/-- The digit of `"0123456789ABCDEF"` at index `n`. -/
def upperhex (n : Nat) : Nat :=
  if n < 10 then 48 + n else 65 + (n - 10)

/-- Go `url.QueryEscape`: a space becomes `+`, a byte to escape becomes `%XX`. -/
def QueryEscape : GoString → GoString
  | [] => []
  | c :: s =>
    if c = 32 then 43 :: QueryEscape s
    else if shouldEscape c then 37 :: upperhex (c / 16) :: upperhex (c % 16) :: QueryEscape s
    else c :: QueryEscape s

/-- Go `url.QueryUnescape`: `%XX` becomes the byte, `+` becomes a space; `none` is the
`EscapeError` of a `%` not followed by two hex digits. -/
def QueryUnescape : GoString → Option GoString
  | [] => some []
  | c :: s =>
    if c = 37 then
      match s with
      | a :: b :: t =>
        if ishex a && ishex b then (QueryUnescape t).map (fun r => (unhex a * 16 + unhex b) :: r)
        else none
      | _ => none
    else if c = 43 then (QueryUnescape s).map (fun r => 32 :: r)
    else (QueryUnescape s).map (fun r => c :: r)

/-- Cut a string at the first byte satisfying `isSep` (Go `strings.IndexAny`/`strings.Index`
followed by slicing around it): the part before, and the part after when a separator exists. -/
def cutAt (isSep : Nat → Bool) : GoString → GoString × Option GoString
  | [] => ([], none)
  | c :: s =>
    if isSep c then ([], some s)
    else ((c :: (cutAt isSep s).1), (cutAt isSep s).2)

/-- The pieces of a raw query between the separators `&` and `;`, as the loop of Go
`parseQuery` takes them off the front one after the other. -/
def querySegments : GoString → List GoString
  | [] => []
  | c :: s =>
    if c = 38 || c = 59 then [] :: querySegments s
    else
      match querySegments s with
      | seg :: rest => (c :: seg) :: rest
      | [] => [[c]]

/-- Go `parseQuery`: for each non-empty segment split key and value at the first `=`, unescape
both, and record the pair; a segment whose key or value does not unescape is skipped. -/
def parseQuery (query : GoString) : List (GoString × GoString) :=
  (querySegments query).filterMap (fun seg =>
    if seg = [] then none
    else
      let kv := cutAt (fun c => c = 61) seg
      match QueryUnescape kv.1, QueryUnescape (kv.2.getD []) with
      | some key, some value => some (key, value)
      | _, _ => none)

/-- Go `r.URL.Query().Get(key)`: the first value recorded for the key, or the empty string. -/
def queryGet (rawQuery : GoString) (key : GoString) : GoString :=
  match (parseQuery rawQuery).find? (fun kv => kv.1 = key) with
  | some kv => kv.2
  | none => []

/-- Go `strings.Split(s, " ")`: the pieces between single spaces; never an empty list. -/
def splitSpace : GoString → List GoString
  | [] => [[]]
  | c :: s =>
    if c = 32 then [] :: splitSpace s
    else
      match splitSpace s with
      | piece :: rest => (c :: piece) :: rest
      | [] => [[c]]

/-- Go `strings.Join(arr, " ")`. -/
def joinSpace : List GoString → GoString
  | [] => []
  | [piece] => piece
  | piece :: rest => piece ++ 32 :: joinSpace rest

/-- Go `execCmd` for a request with raw query `rawQuery`: the response body, and the program
with its arguments handed to `exec.Command` and run. -/
def execCmd (rawQuery : GoString) : String × Option (GoString × List GoString) :=
  let cmd := queryGet rawQuery (ascii "cmd")
  let cmd := (QueryUnescape cmd).getD []
  let arr := splitSpace cmd
  ("OK", if arr.length > 0 then some (arr.headD [], arr.drop 1) else none)

/-- The raw query of `GET /exec?cmd=<url-encoding of c>`. -/
def execRawQuery (c : GoString) : GoString :=
  ascii "cmd=" ++ QueryEscape c

/-! # Theorems -/

/-! ## Shared lemmas -/

theorem newlySent_of_append (w w2 : World) (rs : List Request) (h : w2.sent = w.sent ++ rs) :
    newlySent w w2 = rs := by
  simp [newlySent, h]

theorem listContainersBody_ok (items : List Pod) (w : World) :
    listContainersBody (.ok items) w =
      { w with sent := w.sent ++ items.map (fun p => cuberiteRequest (containerInfosData p)) } := by
  induction items generalizing w with
  | nil => simp [listContainersBody]
  | cons p ps ih =>
    have h := ih (CuberiteServerRequest (containerInfosData p) w)
    simp only [listContainersBody, List.foldl_cons] at h ⊢
    rw [h]
    simp [CuberiteServerRequest]

theorem handlePodCreate_pod_sent (p : Pod) (w : World) :
    (handlePodCreate (.pod p) w).sent = w.sent ++
      [cuberiteRequest [("action", ["createContainer"]), ("id", [p.Name]), ("name", [p.Name]),
        ("imageRepo", [""]), ("imageTag", [""])]] := rfl

theorem handlePodDelete_pod_sent (p : Pod) (w : World) :
    (handlePodDelete (.pod p) w).sent = w.sent ++
      [cuberiteRequest [("action", ["destroyContainer"]), ("id", [p.Name])]] := rfl

/-! ## Event handlers -/

/-- C1: for a create event whose payload is a pod named `n`, whatever the store and the trace
already hold, `handlePodCreate` sends exactly one request, to the Cuberite endpoint, whose body
has exactly the fields `action`, `id`, `name`, `imageRepo` and `imageTag`, each with one value:
`action=createContainer`, `id=n`, `name=n`, and `imageRepo` and `imageTag` present and empty; the
store is not consulted or changed, and a second delivery of the same event sends the same request
again. -/
theorem handlePodCreate_sends_one_createContainer (p : Pod) (w : World) :
    (handlePodCreate (.pod p) w).podsStore = w.podsStore ∧
    ∃ r : Request,
      (handlePodCreate (.pod p) w).sent = w.sent ++ [r] ∧
      newlySent w (handlePodCreate (.pod p) w) = [r] ∧
      r.method = "POST" ∧
      r.url = "http://127.0.0.1:8080/webadmin/Docker/Docker" ∧
      Values.Get r.form "action" = "createContainer" ∧
      Values.Get r.form "id" = p.Name ∧
      Values.Get r.form "name" = p.Name ∧
      Values.Get r.form "imageRepo" = "" ∧
      Values.Get r.form "imageTag" = "" ∧
      newlySent w (handlePodCreate (.pod p) (handlePodCreate (.pod p) w)) = [r, r] ∧
      r.form = [("action", ["createContainer"]), ("id", [p.Name]), ("name", [p.Name]),
        ("imageRepo", [""]), ("imageTag", [""])] ∧
      r.fields = ["action", "id", "name", "imageRepo", "imageTag"] ∧
      Values.Has r.form "action" = true ∧
      Values.Has r.form "id" = true ∧
      Values.Has r.form "name" = true ∧
      Values.Has r.form "imageRepo" = true ∧
      Values.Has r.form "imageTag" = true := by
  refine ⟨rfl, _, handlePodCreate_pod_sent p w, ?_, rfl, rfl, ?_, ?_, ?_, ?_, ?_, ?_, rfl, rfl,
    ?_, ?_, ?_, ?_, ?_⟩
  · exact newlySent_of_append _ _ _ (handlePodCreate_pod_sent p w)
  · simp [cuberiteRequest, Values.Get, List.lookup]
  · simp [cuberiteRequest, Values.Get, List.lookup]
  · simp [cuberiteRequest, Values.Get, List.lookup]
  · simp [cuberiteRequest, Values.Get, List.lookup]
  · simp [cuberiteRequest, Values.Get, List.lookup]
  · apply newlySent_of_append
    rw [handlePodCreate_pod_sent, handlePodCreate_pod_sent]
    simp
  · simp [cuberiteRequest, Values.Has, List.lookup]
  · simp [cuberiteRequest, Values.Has, List.lookup]
  · simp [cuberiteRequest, Values.Has, List.lookup]
  · simp [cuberiteRequest, Values.Has, List.lookup]
  · simp [cuberiteRequest, Values.Has, List.lookup]

/-- C2: for a delete event whose payload is a pod named `n`, `handlePodDelete` sends exactly one
request, with `action=destroyContainer` and `id=n`. -/
theorem handlePodDelete_sends_one_destroyContainer (p : Pod) (w : World) :
    (handlePodDelete (.pod p) w).podsStore = w.podsStore ∧
    ∃ r : Request,
      (handlePodDelete (.pod p) w).sent = w.sent ++ [r] ∧
      newlySent w (handlePodDelete (.pod p) w) = [r] ∧
      r.method = "POST" ∧
      r.url = "http://127.0.0.1:8080/webadmin/Docker/Docker" ∧
      Values.Get r.form "action" = "destroyContainer" ∧
      Values.Get r.form "id" = p.Name := by
  refine ⟨rfl, _, handlePodDelete_pod_sent p w, ?_, rfl, rfl, ?_, ?_⟩
  · exact newlySent_of_append _ _ _ (handlePodDelete_pod_sent p w)
  all_goals simp [cuberiteRequest, Values.Get, List.lookup]

/-- C3: the update handler registered by `watchPods`, and `handlePodUpdate` itself, leave the
world as it was for every pair of payloads: nothing is sent. -/
theorem handlePodUpdate_sends_nothing (oldObj newObj : Obj) (w : World) :
    watchPodsHandlers.UpdateFunc oldObj newObj w = w ∧
    handlePodUpdate oldObj newObj w = w ∧
    newlySent w (watchPodsHandlers.UpdateFunc oldObj newObj w) = [] := by
  refine ⟨rfl, rfl, ?_⟩
  exact newlySent_of_append _ _ _ (by simp [watchPodsHandlers, handlePodUpdate])

theorem newlySent_handlePodCreate (obj : Obj) (w : World) :
    newlySent w (handlePodCreate obj w) =
      match obj with
      | .pod p => [cuberiteRequest [("action", ["createContainer"]), ("id", [p.Name]),
          ("name", [p.Name]), ("imageRepo", [""]), ("imageTag", [""])]]
      | _ => [] := by
  cases obj with
  | pod p => exact newlySent_of_append _ _ _ (handlePodCreate_pod_sent p w)
  | deletedFinalStateUnknown key last => exact newlySent_of_append _ _ _ (by simp [handlePodCreate])
  | other t => exact newlySent_of_append _ _ _ (by simp [handlePodCreate])

theorem newlySent_handlePodDelete (obj : Obj) (w : World) :
    newlySent w (handlePodDelete obj w) =
      match obj with
      | .pod p => [cuberiteRequest [("action", ["destroyContainer"]), ("id", [p.Name])]]
      | _ => [] := by
  cases obj with
  | pod p => exact newlySent_of_append _ _ _ (handlePodDelete_pod_sent p w)
  | deletedFinalStateUnknown key last => exact newlySent_of_append _ _ _ (by simp [handlePodDelete])
  | other t => exact newlySent_of_append _ _ _ (by simp [handlePodDelete])

theorem newlySent_listContainers (client : Client) (w : World) :
    newlySent w (listContainers client w).2 =
      match client.PodsList "default" with
      | .ok pods => pods.map (fun p => cuberiteRequest (containerInfosData p))
      | .error _ => [] := by
  unfold listContainers
  cases h : client.PodsList "default" with
  | error e => exact newlySent_of_append _ _ _ (by simp [listContainersBody])
  | ok pods => exact newlySent_of_append _ _ _ (by simp [listContainersBody_ok])

/-- C4, as stated, fails: the request sent for a deleted pod carries `action` and `id` only; it
has no `name`, `imageRepo` or `imageTag` field. -/
theorem destroyContainer_lacks_fields :
    ∃ r ∈ newlySent ⟨[], []⟩ (handlePodDelete (.pod ⟨"default", "pod-1"⟩) ⟨[], []⟩),
      r.action = "destroyContainer" ∧
      Values.Has r.form "name" = false ∧
      Values.Has r.form "imageRepo" = false ∧
      Values.Has r.form "imageTag" = false := by
  decide

/-- C4, amended: every request sent by the create handler, the delete handler or the
`/containers` handler carries `action` and `id`; it carries `running` exactly when its action is
`containerInfos`; a `createContainer` or `containerInfos` request also carries `name`,
`imageRepo` and `imageTag`, while a `destroyContainer` request carries `action` and `id` only. -/
theorem notification_fields (obj : Obj) (client : Client) (w : World) (r : Request)
    (h : r ∈ newlySent w (handlePodCreate obj w) ∨ r ∈ newlySent w (handlePodDelete obj w) ∨
      r ∈ newlySent w (listContainers client w).2) :
    (r.action = "createContainer" ∨ r.action = "destroyContainer" ∨ r.action = "containerInfos") ∧
    Values.Has r.form "action" = true ∧
    Values.Has r.form "id" = true ∧
    (Values.Has r.form "running" = true ↔ r.action = "containerInfos") ∧
    (r.action = "createContainer" → r.fields = ["action", "id", "name", "imageRepo", "imageTag"]) ∧
    (r.action = "containerInfos" →
      r.fields = ["action", "id", "name", "imageRepo", "imageTag", "running"]) ∧
    (r.action = "destroyContainer" → r.fields = ["action", "id"]) := by
  rw [newlySent_handlePodCreate, newlySent_handlePodDelete, newlySent_listContainers] at h
  rcases h with h | h | h
  · cases obj <;> simp at h
    subst h
    simp [cuberiteRequest, Request.action, Request.fields, Values.Get, Values.Has, List.lookup]
  · cases obj <;> simp at h
    subst h
    simp [cuberiteRequest, Request.action, Request.fields, Values.Get, Values.Has, List.lookup]
  · cases hl : client.PodsList "default" with
    | error e => simp [hl] at h
    | ok pods =>
      simp only [hl, List.mem_map] at h
      obtain ⟨p, _, rfl⟩ := h
      simp [cuberiteRequest, containerInfosData, Request.action, Request.fields, Values.Get,
        Values.Has, List.lookup]

/-- Witness for C4: the request sent for the created pod `pod-1` and its field names. -/
theorem notification_fields_witness :
    cuberiteRequest [("action", ["createContainer"]), ("id", ["pod-1"]), ("name", ["pod-1"]),
        ("imageRepo", [""]), ("imageTag", [""])] ∈
      newlySent ⟨[], []⟩ (handlePodCreate (.pod ⟨"default", "pod-1"⟩) ⟨[], []⟩) ∧
    (cuberiteRequest [("action", ["createContainer"]), ("id", ["pod-1"]), ("name", ["pod-1"]),
        ("imageRepo", [""]), ("imageTag", [""])]).fields =
      ["action", "id", "name", "imageRepo", "imageTag"] :=
  ⟨by decide,
   (notification_fields (.pod ⟨"default", "pod-1"⟩) ⟨.ok []⟩ ⟨[], []⟩
      (cuberiteRequest [("action", ["createContainer"]), ("id", ["pod-1"]), ("name", ["pod-1"]),
        ("imageRepo", [""]), ("imageTag", [""])]) (Or.inl (by decide))).2.2.2.2.1 (by decide)⟩

/-! ## The `/containers` handler -/

/-- C5: `listContainers` answers `OK`; when its pod listing succeeds with `pods`, it sends exactly
`pods.length` requests, the `i`-th one with `action=containerInfos`, `id` and `name` the name of
the `i`-th listed pod, and `running=true`; when the listing fails it sends nothing. -/
theorem listContainers_one_containerInfos_per_pod (client : Client) (w : World) :
    (listContainers client w).1 = "OK" ∧
    (∀ pods : List Pod, client.PodsList "default" = .ok pods →
      (listContainers client w).2.sent =
        w.sent ++ pods.map (fun p => cuberiteRequest (containerInfosData p)) ∧
      (newlySent w (listContainers client w).2).length = pods.length ∧
      ∀ (i : Nat) (hi : i < pods.length),
        ∃ r : Request, (newlySent w (listContainers client w).2)[i]? = some r ∧
          Values.Get r.form "action" = "containerInfos" ∧
          Values.Get r.form "id" = (pods.get ⟨i, hi⟩).Name ∧
          Values.Get r.form "name" = (pods.get ⟨i, hi⟩).Name ∧
          Values.Get r.form "imageRepo" = "" ∧
          Values.Get r.form "imageTag" = "" ∧
          Values.Get r.form "running" = "true") ∧
    (∀ e : String, client.PodsList "default" = .error e →
      (listContainers client w).2 = w ∧ newlySent w (listContainers client w).2 = []) := by
  refine ⟨rfl, ?_, ?_⟩
  · intro pods h
    have hs : (listContainers client w).2.sent =
        w.sent ++ pods.map (fun p => cuberiteRequest (containerInfosData p)) := by
      simp [listContainers, h, listContainersBody_ok]
    have hn := newlySent_of_append _ _ _ hs
    refine ⟨hs, by simp [hn], ?_⟩
    intro i hi
    refine ⟨cuberiteRequest (containerInfosData (pods.get ⟨i, hi⟩)), ?_, ?_⟩
    · rw [hn]
      simp [List.getElem?_map, List.getElem?_eq_getElem hi]
    · simp [cuberiteRequest, containerInfosData, Values.Get, List.lookup]
  · intro e h
    have hw : (listContainers client w).2 = w := by
      simp [listContainers, h, listContainersBody]
    exact ⟨hw, newlySent_of_append _ _ _ (by simp [hw])⟩

/-- Witness for C5: a listing of the two records `A` and `B` produces exactly the two
`containerInfos` requests for `A` and for `B`, and a failed listing produces none. -/
theorem listContainers_one_containerInfos_per_pod_witness :
    (listContainers ⟨.ok [⟨"default", "A"⟩, ⟨"default", "B"⟩]⟩ ⟨[], []⟩).2.sent =
      [] ++ [(⟨"default", "A"⟩ : Pod), ⟨"default", "B"⟩].map
        (fun p => cuberiteRequest (containerInfosData p)) ∧
    (listContainers ⟨.error "connection refused"⟩ ⟨[], []⟩).2 = ⟨[], []⟩ :=
  ⟨((listContainers_one_containerInfos_per_pod ⟨.ok [⟨"default", "A"⟩, ⟨"default", "B"⟩]⟩
      ⟨[], []⟩).2.1 [⟨"default", "A"⟩, ⟨"default", "B"⟩] (by simp [Client.PodsList, NamespaceAll])).1,
   ((listContainers_one_containerInfos_per_pod ⟨.error "connection refused"⟩
      ⟨[], []⟩).2.2 "connection refused" rfl).1⟩

/-! ## Deletions noticed on re-list -/

/-- C6 at the tombstone of `pod-1`: handed the last-known-state tombstone of a record the store
holds, which is the payload of a deletion noticed only on re-list, `handlePodDelete` sends
nothing, where the claim expects one `destroyContainer` request with `id=pod-1`. -/
theorem handlePodDelete_tombstone_sends_nothing :
    handlePodDelete (.deletedFinalStateUnknown "default/pod-1" ⟨"default", "pod-1"⟩)
        ⟨[("default/pod-1", ⟨"default", "pod-1"⟩)], []⟩ =
      ⟨[("default/pod-1", ⟨"default", "pod-1"⟩)], []⟩ ∧
    newlySent ⟨[("default/pod-1", ⟨"default", "pod-1"⟩)], []⟩
      (handlePodDelete (.deletedFinalStateUnknown "default/pod-1" ⟨"default", "pod-1"⟩)
        ⟨[("default/pod-1", ⟨"default", "pod-1"⟩)], []⟩) = [] := by
  decide

/-- The delete handler by payload: it sends one `destroyContainer` request with the record's name
when the payload it is handed is the pod itself, and sends nothing when the payload is the
last-known-state tombstone or any other value that is not a pod. -/
theorem handlePodDelete_by_payload (obj : Obj) (w : World) :
    (∀ p : Pod, obj = .pod p →
      ∃ r : Request, newlySent w (watchPodsHandlers.DeleteFunc obj w) = [r] ∧
        Values.Get r.form "action" = "destroyContainer" ∧ Values.Get r.form "id" = p.Name) ∧
    ((∀ p : Pod, obj ≠ .pod p) →
      watchPodsHandlers.DeleteFunc obj w = w ∧
      newlySent w (watchPodsHandlers.DeleteFunc obj w) = []) := by
  constructor
  · rintro p rfl
    refine ⟨_, newlySent_of_append _ _ _ (handlePodDelete_pod_sent p w), ?_, ?_⟩ <;>
      simp [cuberiteRequest, Values.Get, List.lookup]
  · intro h
    cases obj with
    | pod p => exact absurd rfl (h p)
    | deletedFinalStateUnknown key last =>
      exact ⟨rfl, newlySent_of_append _ _ _ (by simp [watchPodsHandlers, handlePodDelete])⟩
    | other t =>
      exact ⟨rfl, newlySent_of_append _ _ _ (by simp [watchPodsHandlers, handlePodDelete])⟩

/-- The delete handler on the pod `pod-1` as payload, and on its tombstone as payload. -/
theorem handlePodDelete_by_payload_witness :
    (∃ r : Request,
      newlySent ⟨[], []⟩ (watchPodsHandlers.DeleteFunc (.pod ⟨"default", "pod-1"⟩) ⟨[], []⟩) = [r] ∧
        Values.Get r.form "action" = "destroyContainer" ∧
        Values.Get r.form "id" = (⟨"default", "pod-1"⟩ : Pod).Name) ∧
    newlySent ⟨[], []⟩ (watchPodsHandlers.DeleteFunc
      (.deletedFinalStateUnknown "default/pod-1" ⟨"default", "pod-1"⟩) ⟨[], []⟩) = [] :=
  ⟨(handlePodDelete_by_payload (.pod ⟨"default", "pod-1"⟩) ⟨[], []⟩).1 ⟨"default", "pod-1"⟩ rfl,
   ((handlePodDelete_by_payload (.deletedFinalStateUnknown "default/pod-1" ⟨"default", "pod-1"⟩)
      ⟨[], []⟩).2 (by intro p h; cases h)).2⟩

/-! ## Process entry -/

/-- C8, as stated, fails: when the Kubernetes client cannot be created the process aborts before
it looks at its arguments, so with one extra argument `http.Get` is not called and no GET goes
out, and with none neither the server nor the watcher is started; and with the client created
and the one extra argument `%zz`, `http.Get` fails on the URL before sending, so no GET goes out
either. -/
theorem main_client_failure_aborts :
    main (.error "no configuration") (fun _ => .response 200) ["kubeproxy", "containers"] =
      [.fatal "Failed to create a kubernetes client:no configuration"] ∧
    getCalls (main (.error "no configuration") (fun _ => .response 200)
      ["kubeproxy", "containers"]) = [] ∧
    getsSent (main (.error "no configuration") (fun _ => .response 200)
      ["kubeproxy", "containers"]) = [] ∧
    Effect.watchPods ∉ main (.error "no configuration") (fun _ => .response 200) ["kubeproxy"] ∧
    getsSent (main (.ok ⟨.ok []⟩) (fun _ => .notSent "invalid URL escape %zz")
      ["kubeproxy", "%zz"]) = [] := by
  decide

/-- C8, amended: once the Kubernetes client has been created, the mode is decided by the argument
count alone: with no extra argument the process starts the control server and the pod watcher and
then blocks; with exactly one extra argument `a` it calls `http.Get` exactly once, on
`http://127.0.0.1:8000/` followed by `a`, logs what came of it, starts neither, and exits, and
the GET goes out unless `http.Get` fails before sending; with more arguments it exits at once.
When the client cannot be created the process aborts whatever its arguments are. -/
theorem main_mode_by_argument_count (kubeClient : Client) (httpGet : String → GetResult)
    (prog a : String) :
    main (.ok kubeClient) httpGet [prog] =
      [.serve ":8000" ["/containers", "/exec"], .log "about to watch pods", .watchPods,
        .log "watching pods", .blockForever] ∧
    (∃ logged : String, main (.ok kubeClient) httpGet [prog, a] =
      [.httpGet ("http://127.0.0.1:8000/" ++ a) (httpGet ("http://127.0.0.1:8000/" ++ a)),
        .log logged, .exit]) ∧
    getCalls (main (.ok kubeClient) httpGet [prog, a]) = ["http://127.0.0.1:8000/" ++ a] ∧
    getsSent (main (.ok kubeClient) httpGet [prog, a]) =
      (match httpGet ("http://127.0.0.1:8000/" ++ a) with
        | .notSent _ => []
        | _ => ["http://127.0.0.1:8000/" ++ a]) ∧
    (∀ (b : String) (rest : List String),
      main (.ok kubeClient) httpGet (prog :: a :: b :: rest) = [.exit]) ∧
    (∀ (err : String) (osArgs : List String),
      main (.error err) httpGet osArgs =
        [.fatal ("Failed to create a kubernetes client:" ++ err)]) := by
  refine ⟨?_, ?_, ?_, ?_, ?_, ?_⟩
  · simp [main]
  · cases h : httpGet ("http://127.0.0.1:8000/" ++ a) <;>
      simp [main, h, GetResult.err]
  · cases h : httpGet ("http://127.0.0.1:8000/" ++ a) <;>
      simp [main, h, GetResult.err, getCalls]
  · cases h : httpGet ("http://127.0.0.1:8000/" ++ a) <;>
      simp [main, h, GetResult.err, getsSent]
  · intro b rest
    simp [main]
  · intro err osArgs
    rfl

/-! ## The watcher's store and the listing path -/

theorem storeUpsert_fresh (store : List (String × Pod)) (p : Pod)
    (h : ∀ kv ∈ store, kv.1 ≠ MetaNamespaceKeyFunc p) :
    storeUpsert store p = store ++ [(MetaNamespaceKeyFunc p, p)] := by
  unfold storeUpsert
  rw [if_neg]
  simp only [List.any_eq_true, decide_eq_true_eq, not_exists, not_and]
  exact fun kv hkv => h kv hkv

theorem foldl_storeUpsert_nodup (pods : List Pod) :
    ∀ store : List (String × Pod),
      (∀ p ∈ pods, ∀ kv ∈ store, kv.1 ≠ MetaNamespaceKeyFunc p) →
      (pods.map MetaNamespaceKeyFunc).Nodup →
      pods.foldl storeUpsert store = store ++ pods.map (fun p => (MetaNamespaceKeyFunc p, p)) := by
  induction pods with
  | nil => intro store _ _; simp
  | cons p ps ih =>
    intro store hfresh hnd
    rw [List.map_cons, List.nodup_cons] at hnd
    rw [List.foldl_cons, storeUpsert_fresh store p (hfresh p (List.mem_cons_self _ _))]
    rw [ih _ _ hnd.2]
    · simp
    · intro q hq kv hkv
      rcases List.mem_append.mp hkv with hkv | hkv
      · exact hfresh q (List.mem_cons_of_mem _ hq) kv hkv
      · rw [List.mem_singleton] at hkv
        subst hkv
        intro heq
        have hk : MetaNamespaceKeyFunc p = MetaNamespaceKeyFunc q := heq
        exact hnd.1 (hk ▸ List.mem_map_of_mem _ hq)

theorem watchPodsStore_nodup (pods : List Pod) (hnd : (pods.map MetaNamespaceKeyFunc).Nodup) :
    watchPodsStore ⟨.ok pods⟩ = pods.map (fun p => (MetaNamespaceKeyFunc p, p)) := by
  have h := foldl_storeUpsert_nodup pods [] (by simp) hnd
  simpa [watchPodsStore, createEndpointsPodLW, Client.PodsList] using h

theorem id_containerInfos (p : Pod) : (cuberiteRequest (containerInfosData p)).id = p.Name := by
  simp [cuberiteRequest, containerInfosData, Request.id, Values.Get, List.lookup]

/-- C9 at a remote collection holding the one pod `dns` of namespace `kube-system`: the
watcher's store holds that record after listing the collection, while `listContainers` reports
nothing, where the claim expects a `containerInfos` request for `dns`. -/
theorem listContainers_misses_other_namespaces :
    (watchPodsStore ⟨.ok [⟨"kube-system", "dns"⟩]⟩).map (fun kv => kv.2.Name) = ["dns"] ∧
    (newlySent ⟨[], []⟩ (listContainers ⟨.ok [⟨"kube-system", "dns"⟩]⟩ ⟨[], []⟩).2).map
      Request.id = [] := by
  decide

/-- What the listing path reports: for a remote collection whose records have distinct keys, the
identities for which `listContainers` sends a `containerInfos` request are exactly the names of
the records of namespace `default` that the store holds after the watcher has listed the same
collection. -/
theorem listContainers_reports_default_namespace (pods : List Pod) (w : World) (n : String)
    (hnd : (pods.map MetaNamespaceKeyFunc).Nodup) :
    n ∈ (newlySent w (listContainers ⟨.ok pods⟩ w).2).map Request.id ↔
      ∃ kv ∈ watchPodsStore ⟨.ok pods⟩, kv.2.Namespace = "default" ∧ kv.2.Name = n := by
  rw [watchPodsStore_nodup pods hnd, newlySent_listContainers]
  have hl : Client.PodsList ⟨.ok pods⟩ "default" =
      .ok (pods.filter (fun p => p.Namespace = "default")) := by
    simp [Client.PodsList, NamespaceAll]
  simp only [hl, List.map_map, List.mem_map, List.mem_filter, Function.comp, id_containerInfos]
  constructor
  · rintro ⟨p, ⟨hp, hns⟩, rfl⟩
    exact ⟨_, ⟨p, hp, rfl⟩, by simpa using hns, rfl⟩
  · rintro ⟨kv, ⟨p, hp, rfl⟩, hns, rfl⟩
    exact ⟨p, ⟨hp, by simpa using hns⟩, rfl⟩

/-- The listing path on a collection with one pod in `default` and one in `kube-system`. -/
theorem listContainers_reports_default_namespace_witness :
    "web" ∈ (newlySent ⟨[], []⟩ (listContainers
        ⟨.ok [⟨"default", "web"⟩, ⟨"kube-system", "dns"⟩]⟩ ⟨[], []⟩).2).map Request.id ↔
      ∃ kv ∈ watchPodsStore ⟨.ok [⟨"default", "web"⟩, ⟨"kube-system", "dns"⟩]⟩,
        kv.2.Namespace = "default" ∧ kv.2.Name = "web" :=
  listContainers_reports_default_namespace [⟨"default", "web"⟩, ⟨"kube-system", "dns"⟩]
    ⟨[], []⟩ "web" (by decide)

/-! ## Identity carried by a notification -/

/-- C10 at the pods `web` of namespace `default` and `web` of namespace `kube-system`: they are
two distinct records of the collection the watcher lists, held in its store under two different
keys, yet the `createContainer` requests the add handler sends for them carry the same `id`, and
so do their `destroyContainer` requests, where the claim expects different `id` fields. -/
theorem same_name_in_two_namespaces_same_id :
    (⟨"default", "web"⟩ : Pod) ≠ ⟨"kube-system", "web"⟩ ∧
    watchPodsStore ⟨.ok [⟨"default", "web"⟩, ⟨"kube-system", "web"⟩]⟩ =
      [("default/web", ⟨"default", "web"⟩), ("kube-system/web", ⟨"kube-system", "web"⟩)] ∧
    MetaNamespaceKeyFunc ⟨"default", "web"⟩ ≠ MetaNamespaceKeyFunc ⟨"kube-system", "web"⟩ ∧
    (newlySent ⟨[], []⟩ (handlePodCreate (.pod ⟨"default", "web"⟩) ⟨[], []⟩)).map Request.id =
      ["web"] ∧
    (newlySent ⟨[], []⟩ (handlePodCreate (.pod ⟨"default", "web"⟩) ⟨[], []⟩)).map Request.id =
      (newlySent ⟨[], []⟩ (handlePodCreate (.pod ⟨"kube-system", "web"⟩) ⟨[], []⟩)).map
        Request.id ∧
    (newlySent ⟨[], []⟩ (handlePodDelete (.pod ⟨"default", "web"⟩) ⟨[], []⟩)).map Request.id =
      (newlySent ⟨[], []⟩ (handlePodDelete (.pod ⟨"kube-system", "web"⟩) ⟨[], []⟩)).map
        Request.id := by
  decide

/-! ## The `/exec` handler -/

theorem upperhex_ishex (n : Nat) (h : n < 16) :
    ishex (upperhex n) = true ∧ unhex (upperhex n) = n := by
  interval_cases n <;> decide

theorem upperhex_not_separator (n : Nat) : upperhex n ≠ 38 ∧ upperhex n ≠ 59 := by
  unfold upperhex
  split <;> omega

theorem shouldEscape_false (c : Nat) (h : shouldEscape c = false) :
    c ≠ 37 ∧ c ≠ 43 ∧ c ≠ 38 ∧ c ≠ 59 := by
  refine ⟨?_, ?_, ?_, ?_⟩ <;> rintro rfl <;> simp [shouldEscape] at h

theorem QueryUnescape_QueryEscape (c : GoString) (hb : ∀ b ∈ c, b < 256) :
    QueryUnescape (QueryEscape c) = some c := by
  induction c with
  | nil => rfl
  | cons b s ih =>
    have ihs := ih (fun x hx => hb x (List.mem_cons_of_mem _ hx))
    have hb256 : b < 256 := hb b (List.mem_cons_self _ _)
    unfold QueryEscape
    by_cases h32 : b = 32
    · subst h32
      simp only [if_true]
      unfold QueryUnescape
      simp [ihs]
    · rw [if_neg h32]
      cases hesc : shouldEscape b with
      | true =>
        have hhi := upperhex_ishex (b / 16) (by omega)
        have hlo := upperhex_ishex (b % 16) (by omega)
        simp only [if_true]
        unfold QueryUnescape
        simp only [if_true, hhi.1, hlo.1, hhi.2, hlo.2, ihs, Bool.and_self, Option.map_some']
        congr 2
        omega
      | false =>
        obtain ⟨h37, h43, -, -⟩ := shouldEscape_false b hesc
        simp only [Bool.false_eq_true, if_false]
        unfold QueryUnescape
        simp [h37, h43, ihs]

theorem QueryEscape_no_separator (c : GoString) :
    ∀ b ∈ QueryEscape c, b ≠ 38 ∧ b ≠ 59 := by
  induction c with
  | nil => simp [QueryEscape]
  | cons x s ih =>
    intro b hb
    unfold QueryEscape at hb
    by_cases h32 : x = 32
    · rw [if_pos h32] at hb
      rcases List.mem_cons.mp hb with rfl | hb
      · omega
      · exact ih b hb
    · rw [if_neg h32] at hb
      cases hesc : shouldEscape x with
      | true =>
        simp only [hesc, if_true, List.mem_cons] at hb
        rcases hb with rfl | rfl | rfl | hb
        · omega
        · exact upperhex_not_separator _
        · exact upperhex_not_separator _
        · exact ih b hb
      | false =>
        simp only [hesc, Bool.false_eq_true, if_false, List.mem_cons] at hb
        rcases hb with rfl | hb
        · exact ⟨(shouldEscape_false b hesc).2.2.1, (shouldEscape_false b hesc).2.2.2⟩
        · exact ih b hb

theorem querySegments_single (s : GoString) (hs : s ≠ []) (h : ∀ b ∈ s, b ≠ 38 ∧ b ≠ 59) :
    querySegments s = [s] := by
  induction s with
  | nil => exact absurd rfl hs
  | cons c t ih =>
    have hc := h c (List.mem_cons_self _ _)
    unfold querySegments
    rw [if_neg (by simp [hc.1, hc.2])]
    cases t with
    | nil => simp [querySegments]
    | cons d u =>
      rw [ih (by simp) (fun b hb => h b (List.mem_cons_of_mem _ hb))]

theorem queryGet_execRawQuery (c : GoString) (hb : ∀ b ∈ c, b < 256) :
    queryGet (execRawQuery c) (ascii "cmd") = c := by
  have hseg : querySegments (execRawQuery c) = [execRawQuery c] := by
    apply querySegments_single
    · simp [execRawQuery, ascii]
    · intro b hb
      rcases List.mem_append.mp hb with hb | hb
      · have : b = 99 ∨ b = 109 ∨ b = 100 ∨ b = 61 := by simpa [ascii] using hb
        omega
      · exact QueryEscape_no_separator c b hb
  have hcut : cutAt (fun c => c = 61) (execRawQuery c) = (ascii "cmd", some (QueryEscape c)) := by
    simp [execRawQuery, ascii, cutAt]
  have hne : execRawQuery c ≠ [] := by simp [execRawQuery, ascii]
  have hkey : QueryUnescape (ascii "cmd") = some (ascii "cmd") := by decide
  simp [queryGet, parseQuery, hseg, hne, hcut, hkey, QueryUnescape_QueryEscape c hb]

theorem QueryUnescape_plain (c : GoString) (hp : ∀ b ∈ c, b ≠ 37 ∧ b ≠ 43) :
    QueryUnescape c = some c := by
  induction c with
  | nil => rfl
  | cons b s ih =>
    have hb := hp b (List.mem_cons_self _ _)
    unfold QueryUnescape
    simp [hb.1, hb.2, ih (fun x hx => hp x (List.mem_cons_of_mem _ hx))]

theorem splitSpace_ne_nil (s : GoString) : splitSpace s ≠ [] := by
  cases s with
  | nil => simp [splitSpace]
  | cons c t =>
    unfold splitSpace
    split
    · simp
    · split <;> simp

theorem joinSpace_splitSpace (s : GoString) : joinSpace (splitSpace s) = s := by
  induction s with
  | nil => rfl
  | cons c t ih =>
    unfold splitSpace
    by_cases h : c = 32
    · rw [if_pos h]
      obtain ⟨piece, rest, hpr⟩ := List.exists_cons_of_ne_nil (splitSpace_ne_nil t)
      rw [hpr] at ih ⊢
      simp [joinSpace, ih, h]
    · rw [if_neg h]
      obtain ⟨piece, rest, hpr⟩ := List.exists_cons_of_ne_nil (splitSpace_ne_nil t)
      rw [hpr] at ih
      simp only [hpr]
      cases rest with
      | nil => simp_all [joinSpace]
      | cons r rs =>
        simp only [joinSpace] at ih ⊢
        rw [← ih]
        simp

/-- The `/exec` path on a command without `+` and `%`: the single decoding by
`r.URL.Query().Get` gives the command back for every byte string, and for a command that the
second unescape leaves alone `execCmd` runs the first piece of the command split on single spaces
with the other pieces as arguments, which joined by spaces give the command. -/
theorem execCmd_plain_command (c : GoString) (hb : ∀ b ∈ c, b < 256)
    (hp : ∀ b ∈ c, b ≠ 37 ∧ b ≠ 43) :
    queryGet (execRawQuery c) (ascii "cmd") = c ∧
    execCmd (execRawQuery c) = ("OK", some ((splitSpace c).headD [], (splitSpace c).drop 1)) ∧
    joinSpace (splitSpace c) = c := by
  refine ⟨queryGet_execRawQuery c hb, ?_, joinSpace_splitSpace c⟩
  have hlen : 0 < (splitSpace c).length := List.length_pos.mpr (splitSpace_ne_nil c)
  simp [execCmd, queryGet_execRawQuery c hb, QueryUnescape_plain c hp, hlen]

/-- The plain command `docker ps -a` through the `/exec` path. -/
theorem execCmd_plain_command_witness :
    execCmd (execRawQuery (ascii "docker ps -a")) =
      ("OK", some ((splitSpace (ascii "docker ps -a")).headD [],
        (splitSpace (ascii "docker ps -a")).drop 1)) :=
  (execCmd_plain_command (ascii "docker ps -a") (by decide) (by decide)).2.1

/-- C7 at the command `echo a+b`: the request `GET /exec?cmd=echo+a%2Bb` carries the URL-encoding
of the command and `r.URL.Query().Get("cmd")` gives the command back, but `execCmd` unescapes that
value a second time, so it runs `echo` with the two arguments `a` and `b` instead of the single
argument `a+b`; program and arguments joined by spaces give `echo a b`, not the command. -/
theorem execCmd_unescapes_twice :
    execRawQuery (ascii "echo a+b") = ascii "cmd=echo+a%2Bb" ∧
    queryGet (execRawQuery (ascii "echo a+b")) (ascii "cmd") = ascii "echo a+b" ∧
    splitSpace (ascii "echo a+b") = [ascii "echo", ascii "a+b"] ∧
    execCmd (execRawQuery (ascii "echo a+b")) =
      ("OK", some (ascii "echo", [ascii "a", ascii "b"])) ∧
    joinSpace (ascii "echo" :: [ascii "a", ascii "b"]) ≠ ascii "echo a+b" := by
  decide

end Kubeproxy
